import Mathlib

/-!
Shallow embedding of the recipe-management REST API repository
(`app/recipe/views.py`, its user/core components, and the behaviours pinned by the
repository tests).  Machine integers are modelled as `Nat`/`Int`; Python exceptions
as an explicit error type threaded through `Except`; database tables as lists of rows.
-/

deriving instance DecidableEq for Except

namespace RecipeApp

/-- A raised Python exception, as far as the claims need to distinguish them:
`ValueError` (raised by `int()` and by the user manager on an empty email) versus
the web framework's `ValidationError`. -/
inductive PyExc where
  | valueError (msg : String)
  | validationError (msg : String)
deriving DecidableEq, Repr

/-- Row of the user table: email, name, password verifier (hashing is abstracted:
the stored verifier matches exactly the original raw password), staff/superuser flags. -/
structure User where
  id : Nat
  email : String
  password : String
  name : String
  is_staff : Bool
  is_superuser : Bool
deriving DecidableEq, Repr

/-- Row of the tag table and of the ingredient table: both are `{id, name, user}`
(`core.models.Tag` / `core.models.Ingredient`); one shared row type serves both. -/
structure Attr where
  id : Nat
  name : String
  user : Nat
deriving DecidableEq, Repr

/-- Row of the recipe table (`core.models.Recipe`), with its many-to-many links to
tags and ingredients inlined as lists of row ids.  `price` (a non-negative decimal)
is modelled in cents as a `Nat`; no claim depends on decimal arithmetic. -/
structure Recipe where
  id : Nat
  title : String
  time_minutes : Nat
  price : Nat
  description : String
  link : String
  user : Nat
  tags : List Nat
  ingredients : List Nat
deriving DecidableEq, Repr

/-- The relational store: one list of rows per table. -/
structure Store where
  users : List User
  recipes : List Recipe
  tags : List Attr
  ingredients : List Attr
deriving DecidableEq, Repr

/-! ### Python primitives used by the views -/

/-- `str.split(sep)` for a one-character separator, on the character list of the
string.  Like Python, splitting the empty string yields `[[]]` (one empty piece). -/
def splitOnChar (sep : Char) : List Char → List (List Char)
  | [] => [[]]
  | c :: rest =>
    let r := splitOnChar sep rest
    if c == sep then [] :: r
    else
      match r with
      | [] => [[c]]
      | h :: t => (c :: h) :: t

/-- Whitespace recognised by Python `str.strip()` / `int()` (the common ASCII cases). -/
def isPySpace (c : Char) : Bool := c == ' ' || c == '\t' || c == '\n' || c == '\r'

/-- `str.strip()` on a character list. -/
def stripChars (cs : List Char) : List Char :=
  ((cs.dropWhile isPySpace).reverse.dropWhile isPySpace).reverse

/-- Value of a run of decimal digit characters. -/
def digitsToNat (cs : List Char) : Nat :=
  cs.foldl (fun acc c => 10 * acc + (c.toNat - 48)) 0

/-- Python `int(s)` on a decimal string: strips surrounding whitespace, allows one
leading sign, then requires a nonempty run of digits; anything else raises
`ValueError`.  (Underscore digit separators are not modelled; no claim uses them.) -/
def pyIntChars (cs : List Char) : Except PyExc Int :=
  let t := stripChars cs
  let neg := t.headD ' ' == '-'
  let body := if neg || (t.headD ' ' == '+') then t.drop 1 else t
  if body.length != 0 && body.all Char.isDigit then
    Except.ok (if neg then -(Int.ofNat (digitsToNat body)) else Int.ofNat (digitsToNat body))
  else
    Except.error (PyExc.valueError "invalid literal for int with base 10")

/-- Python `int(s)` on a `String`. -/
def pyInt (s : String) : Except PyExc Int := pyIntChars s.data

/-- `RecipeViewSet._params_to_ints` (src/app/recipe/views.py:36-39):
`[int(str_id) for str_id in qs.split(",")]`; a non-integer piece raises `ValueError`. -/
def params_to_ints (qs : String) : Except PyExc (List Int) :=
  (splitOnChar ',' qs.data).mapM (fun piece => pyIntChars piece)

/-! ### Query sets (src/app/recipe/views.py) -/

/-- Insert `a` into `l` keeping `le`-sortedness (helper of `sortBy`). -/
def insertSorted {α : Type} (le : α → α → Bool) (a : α) : List α → List α
  | [] => [a]
  | b :: bs => if le a b then a :: b :: bs else b :: insertSorted le a bs

/-- Insertion sort.  The database's `ORDER BY` promises only the ordering of the
result, which is what the theorems below consume; insertion sort realises it with
kernel-computable (structural) recursion. -/
def sortBy {α : Type} (le : α → α → Bool) : List α → List α
  | [] => []
  | a :: as => insertSorted le a (sortBy le as)

/-- Descending-id comparator realising `order_by("-id")` on recipes. -/
def descId (a b : Recipe) : Bool := decide (b.id ≤ a.id)

/-- Lexicographic `≤` on character lists by code point: the database collation
behind `ORDER BY name`, in kernel-computable form. -/
def chListLe : List Char → List Char → Bool
  | [], _ => true
  | _ :: _, [] => false
  | a :: as, b :: bs =>
    if a.toNat < b.toNat then true
    else if b.toNat < a.toNat then false
    else chListLe as bs

/-- Lexicographic `≤` on strings. -/
def strLe (a b : String) : Bool := chListLe a.data b.data

/-- Descending-name comparator realising `order_by("-name")` on tags/ingredients. -/
def descName (a b : Attr) : Bool := strLe b.name a.name

/-- One SQL inner-join filter step for `filter(tags__id__in=ids)` /
`filter(ingredients__id__in=ids)`: each recipe row is repeated once per matching
linked id, exactly as the join duplicates rows (the reason the source needs
`.distinct()`). -/
def joinFilter (link : Recipe → List Nat) (ids : List Int) (qs : List Recipe) : List Recipe :=
  qs.flatMap (fun r => ((link r).filter (fun t => ids.contains (Int.ofNat t))).map (fun _ => r))

/-- The `if tags:`/`if ingredients:` branch of `RecipeViewSet.get_queryset`
(views.py:46-56): a missing or empty parameter is falsy and leaves the query set
alone; otherwise the comma-separated ids are parsed (propagating `ValueError`)
and the join filter is applied. -/
def applyIdFilter (link : Recipe → List Nat) (param : Option String)
    (qs : List Recipe) : Except PyExc (List Recipe) :=
  match param with
  | none => Except.ok qs
  | some s =>
    if s == "" then Except.ok qs
    else
      match params_to_ints s with
      | Except.error e => Except.error e
      | Except.ok ids => Except.ok (joinFilter link ids qs)

/-- `RecipeViewSet.get_queryset` (src/app/recipe/views.py:41-60): scope to
`user == request.user`, optionally join-filter on tags and on ingredients, then
`order_by("-id").distinct()`. -/
def recipe_get_queryset (st : Store) (u : Nat) (tagsParam ingredientsParam : Option String) :
    Except PyExc (List Recipe) :=
  match applyIdFilter Recipe.tags tagsParam (st.recipes.filter (fun r => r.user == u)) with
  | Except.error e => Except.error e
  | Except.ok qs1 =>
    match applyIdFilter Recipe.ingredients ingredientsParam qs1 with
    | Except.error e => Except.error e
    | Except.ok qs2 => Except.ok ((sortBy descId qs2).dedup)

/-- The reverse join behind `filter(recipe__isnull=False)` (views.py:116): each
tag/ingredient row is repeated once per recipe of ANY owner that links to it. -/
def joinAssigned (st : Store) (link : Recipe → List Nat) (qs : List Attr) : List Attr :=
  qs.flatMap (fun a => (st.recipes.filter (fun r => (link r).contains a.id)).map (fun _ => a))

/-- `BaseRecipeAttrViewSet.get_queryset` (src/app/recipe/views.py:111-118): scope to
the current user, compute `bool(int(query_params.get("assigned_only", 0)))`
(propagating `ValueError` from `int()`), optionally keep only rows linked to some
recipe, then `order_by("-name").distinct()`. -/
def attr_get_queryset (rows : List Attr) (st : Store) (link : Recipe → List Nat)
    (u : Nat) (assignedParam : Option String) : Except PyExc (List Attr) :=
  let qs0 := rows.filter (fun a => a.user == u)
  match (match assignedParam with | none => Except.ok 0 | some s => pyInt s) with
  | Except.error e => Except.error e
  | Except.ok v =>
    let qs1 := if v == 0 then qs0 else joinAssigned st link qs0
    Except.ok ((sortBy descName qs1).dedup)

/-! ### Detail-route operations -/

/-- The framework's `get_object`: look the primary key up inside `get_queryset()`
(no filter query parameters accompany detail requests); absence means 404. -/
def recipe_get_object (st : Store) (u : Nat) (pk : Nat) : Option Recipe :=
  match recipe_get_queryset st u none none with
  | Except.ok l => l.find? (fun r => r.id == pk)
  | Except.error _ => none

/-- `get_object` for the tag/ingredient view sets. -/
def attr_get_object (rows : List Attr) (st : Store) (link : Recipe → List Nat)
    (u : Nat) (pk : Nat) : Option Attr :=
  match attr_get_queryset rows st link u none with
  | Except.ok l => l.find? (fun a => a.id == pk)
  | Except.error _ => none

/-- Recipe detail GET (`RetrieveModelMixin` via `ModelViewSet`): 200 when the object
is inside the requester-scoped query set, else 404. -/
def recipe_retrieve (st : Store) (u : Nat) (pk : Nat) : Nat :=
  if (recipe_get_object st u pk).isSome then 200 else 404

/-- Recipe DELETE (`DestroyModelMixin`): remove the row and answer 204 when the
object is visible to the requester, else leave the store alone and answer 404. -/
def recipe_destroy (st : Store) (u : Nat) (pk : Nat) : Store × Nat :=
  match recipe_get_object st u pk with
  | some r => ({ st with recipes := st.recipes.filter (fun x => x.id != r.id) }, 204)
  | none => (st, 404)

/-- A recipe write payload.  `user` models a `user` key present in the request body:
the serializer has no writable `user` field, so the value never reaches the model. -/
structure RecipePayload where
  title : Option String
  time_minutes : Option Nat
  price : Option Nat
  description : Option String
  link : Option String
  user : Option Nat
  tags : Option (List String)
  ingredients : Option (List String)
deriving DecidableEq, Repr

/-- The all-absent payload. -/
def RecipePayload.empty : RecipePayload :=
  { title := none, time_minutes := none, price := none, description := none,
    link := none, user := none, tags := none, ingredients := none }

/-- Does this row match a nested-payload lookup for owner `u` and name `n`? -/
def matchesAttr (u : Nat) (n : String) (a : Attr) : Bool := a.user == u && a.name == n

/-- Is there already a row of owner `u` named `n`? -/
def hasMatch (u : Nat) (rows : List Attr) (n : String) : Bool :=
  (rows.find? (matchesAttr u n)).isSome

/-- Modelled from the spec: `recipe/serializers.py` is absent from src; per spec
§4.3/§8 and the glossary, each nested `{name}` item is resolved by looking up an
existing row with that owner and exact name, creating a fresh row (scoped to the
requester, with the next free id) when none matches, in payload order.  Returns
(resolved rows in payload order, updated table, next free id). -/
def get_or_create (u : Nat) (rows : List Attr) (nid : Nat) :
    List String → List Attr × List Attr × Nat
  | [] => ([], rows, nid)
  | n :: ns =>
    match rows.find? (matchesAttr u n) with
    | some a =>
      let r := get_or_create u rows nid ns
      (a :: r.1, r.2.1, r.2.2)
    | none =>
      let row : Attr := { id := nid, name := n, user := u }
      let r := get_or_create u (rows ++ [row]) (nid + 1) ns
      (row :: r.1, r.2.1, r.2.2)

/-- Recipe POST: `RecipeViewSet.perform_create` (views.py:71-73) saves the serializer
with `user=self.request.user`, so the stored owner is the requester whatever the
payload's `user` value; nested tags/ingredients are resolved by `get_or_create`
(modelled from the spec, serializers absent from src) and attached in payload
order.  `rid`/`tid`/`iid` are the next free ids of the three tables. -/
def recipe_create (st : Store) (u : Nat) (rid tid iid : Nat) (p : RecipePayload) :
    Store × Recipe :=
  let tRes := get_or_create u st.tags tid (p.tags.getD [])
  let iRes := get_or_create u st.ingredients iid (p.ingredients.getD [])
  let r : Recipe :=
    { id := rid
      title := p.title.getD ""
      time_minutes := p.time_minutes.getD 0
      price := p.price.getD 0
      description := p.description.getD ""
      link := p.link.getD ""
      user := u
      tags := tRes.1.map Attr.id
      ingredients := iRes.1.map Attr.id }
  ({ st with recipes := st.recipes ++ [r], tags := tRes.2.1, ingredients := iRes.2.1 }, r)

/-- Recipe PATCH (`UpdateModelMixin` with the modelled serializer): 404 and no
change when the object is outside the requester-scoped query set; otherwise each
present payload field overwrites, nested tags/ingredients are replaced wholesale
through `get_or_create`, and the `user` value (not a serializer field) is ignored. -/
def recipe_partial_update (st : Store) (u : Nat) (pk : Nat) (tid iid : Nat)
    (p : RecipePayload) : Store × Nat :=
  match recipe_get_object st u pk with
  | none => (st, 404)
  | some r =>
    let tRes : Option (List Nat) × List Attr :=
      match p.tags with
      | some names =>
        let g := get_or_create u st.tags tid names
        (some (g.1.map Attr.id), g.2.1)
      | none => (none, st.tags)
    let iRes : Option (List Nat) × List Attr :=
      match p.ingredients with
      | some names =>
        let g := get_or_create u st.ingredients iid names
        (some (g.1.map Attr.id), g.2.1)
      | none => (none, st.ingredients)
    let r2 : Recipe :=
      { r with
        title := p.title.getD r.title
        time_minutes := p.time_minutes.getD r.time_minutes
        price := p.price.getD r.price
        description := p.description.getD r.description
        link := p.link.getD r.link
        tags := tRes.1.getD r.tags
        ingredients := iRes.1.getD r.ingredients }
    ({ st with
        recipes := st.recipes.map (fun x => if x.id == pk then r2 else x)
        tags := tRes.2
        ingredients := iRes.2 }, 200)

/-- Tag/Ingredient PATCH (`UpdateModelMixin` in `BaseRecipeAttrViewSet`): rename when
visible to the requester, else 404 with the table unchanged. -/
def attr_update (rows : List Attr) (st : Store) (link : Recipe → List Nat)
    (u : Nat) (pk : Nat) (newName : Option String) : List Attr × Nat :=
  match attr_get_object rows st link u pk with
  | none => (rows, 404)
  | some _ =>
    (rows.map (fun x => if x.id == pk then { x with name := newName.getD x.name } else x), 200)

/-- Tag/Ingredient DELETE (`DestroyModelMixin`): remove when visible to the
requester, else 404 with the table unchanged. -/
def attr_destroy (rows : List Attr) (st : Store) (link : Recipe → List Nat)
    (u : Nat) (pk : Nat) : List Attr × Nat :=
  match attr_get_object rows st link u pk with
  | some a => (rows.filter (fun x => x.id != a.id), 204)
  | none => (rows, 404)

/-- `BaseRecipeAttrViewSet` (src/app/recipe/views.py:100-105) mixes in only
Destroy/Update/List; there is no `RetrieveModelMixin`, so the router maps no handler
to GET on the tag/ingredient detail route and the framework answers
405 Method Not Allowed for every requester, owner or stranger alike. -/
def attr_retrieve (_rows : List Attr) (_st : Store) (_u : Nat) (_pk : Nat) : Nat := 405

/-! ### List views (for the unhandled-`ValueError` claim) -/

/-- The recipe list action: `get_queryset` then a 200 response.  `views.py` has no
try/except, so a `ValueError` from query-parameter parsing propagates as a raised
exception (the `Except.error` branch), never as a 400 response value. -/
def recipe_list_view (st : Store) (u : Nat) (tagsParam ingredientsParam : Option String) :
    Except PyExc (Nat × List Recipe) :=
  (recipe_get_queryset st u tagsParam ingredientsParam).map (fun l => (200, l))

/-- The tag/ingredient list action, likewise. -/
def attr_list_view (rows : List Attr) (st : Store) (link : Recipe → List Nat)
    (u : Nat) (assignedParam : Option String) : Except PyExc (Nat × List Attr) :=
  (attr_get_queryset rows st link u assignedParam).map (fun l => (200, l))

/-! ### User store, modelled from the spec (core/models.py absent from src) -/

/-- ASCII lower-casing of a character list (`str.lower()` on the domain part). -/
def lowerChars (cs : List Char) : List Char := cs.map Char.toLower

/-- Modelled from the spec: `core/models.py` is absent from src.  Per spec §4.1
(`BaseUserManager`-style normalisation, pinned by
core/tests/test_models.py::test_new_user_email_normalized): split at the LAST `@`,
keep the local part verbatim, lower-case the domain part; a string without `@` is
returned unchanged. -/
def normalize_email (email : String) : String :=
  let rev := email.data.reverse
  if rev.contains '@' then
    let domainRev := rev.takeWhile (fun c => c != '@')
    let localRev := (rev.dropWhile (fun c => c != '@')).drop 1
    String.mk (localRev.reverse ++ '@' :: lowerChars domainRev.reverse)
  else email

/-- Modelled from the spec: `core/models.py` is absent from src.  Per spec §4.1,
`create_user` rejects an empty/falsy email before persisting anything; the src test
core/tests/test_models.py::test_new_user_without_email_raises_error pins the raised
exception as `ValueError` (its docstring: "raises a ValueError").  On success the
user is stored with the normalised email. -/
def create_user (users : List User) (nid : Nat) (email pw nm : String) :
    Except PyExc (List User × User) :=
  if email == "" then
    Except.error (PyExc.valueError "User must have an email address")
  else
    let u : User :=
      { id := nid, email := normalize_email email, password := pw, name := nm,
        is_staff := false, is_superuser := false }
    Except.ok (users ++ [u], u)

/-- Did the operation raise a `ValidationError`? -/
def raisesValidationError {α : Type} : Except PyExc α → Bool
  | Except.error (PyExc.validationError _) => true
  | _ => false

/-- Did the operation raise a `ValueError`? -/
def raisesValueError {α : Type} : Except PyExc α → Bool
  | Except.error (PyExc.valueError _) => true
  | _ => false

/-- Did the operation succeed? -/
def succeeded {α : Type} : Except PyExc α → Bool
  | Except.ok _ => true
  | Except.error _ => false

/-! ### Token endpoint, modelled from the spec (user/ views and serializers absent) -/

/-- `check_password(raw)`: hashing is abstracted, the stored verifier matches exactly
the original raw password. -/
def check_password (u : User) (raw : String) : Bool := u.password == raw

/-- `authenticate(email, password)`: some user with that email whose password
matches, else `none`. -/
def authenticate (users : List User) (email pw : String) : Option User :=
  users.find? (fun u => u.email == email && check_password u pw)

/-- A token-endpoint response: HTTP status plus the `token` key when present. -/
structure TokenResponse where
  status : Nat
  token : Option String
deriving DecidableEq, Repr

/-- Modelled from the spec: `user/serializers.py` and `user/views.py` are absent from
src.  Per spec §4.2: POST credentials answers 200 with a `token` key exactly when
the credentials match an existing user; otherwise 400 with no `token` key, and an
empty (or missing, modelled as empty) email or password is always rejected up
front — an empty password is never treated as skipping the password check. -/
def token_endpoint (users : List User) (email pw : String) : TokenResponse :=
  if email == "" || pw == "" then { status := 400, token := none }
  else
    match authenticate users email pw with
    | some u => { status := 200, token := some ("token-" ++ toString u.id) }
    | none => { status := 400, token := none }

/-! ### Concrete data for witnesses and counterexamples -/

/-- The empty store. -/
def emptyStore : Store := { users := [], recipes := [], tags := [], ingredients := [] }

def rdemo1 : Recipe :=
  { id := 1, title := "Thai Vegetable Curry", time_minutes := 22, price := 525,
    description := "", link := "", user := 1, tags := [1], ingredients := [] }

def rdemo2 : Recipe :=
  { id := 2, title := "Aubergine with Tahini", time_minutes := 30, price := 250,
    description := "", link := "", user := 1, tags := [2], ingredients := [1] }

def rdemo3 : Recipe :=
  { id := 3, title := "Fish and chips", time_minutes := 10, price := 100,
    description := "", link := "", user := 1, tags := [], ingredients := [] }

/-- A recipe owned by user 2, linked to tag 1 and ingredient 1. -/
def rdemo4 : Recipe :=
  { id := 4, title := "Porridge", time_minutes := 3, price := 200,
    description := "", link := "", user := 2, tags := [1], ingredients := [1] }

def tagVegan : Attr := { id := 1, name := "Vegan", user := 1 }
def tagVegetarian : Attr := { id := 2, name := "Vegetarian", user := 1 }
def tagFruity : Attr := { id := 3, name := "Fruity", user := 2 }
def ingSalt : Attr := { id := 1, name := "Salt", user := 1 }

def demoUser : User :=
  { id := 1, email := "test@example.com", password := "test123", name := "Test Name",
    is_staff := false, is_superuser := false }

/-- A store exercising every view: user 1 owns recipes 1-3, user 2 owns recipe 4;
tag 1 is linked from recipes of both owners. -/
def demoStore : Store :=
  { users := [demoUser]
    recipes := [rdemo1, rdemo2, rdemo3, rdemo4]
    tags := [tagVegan, tagVegetarian, tagFruity]
    ingredients := [ingSalt] }

/-- User 1's recipe list filtered by `tags=1,2` in the demo store. -/
def c3demoList : List Recipe := [rdemo2, rdemo1]

/-- User 1's recipe list filtered by `ingredients=1,2` in the demo store. -/
def c3demoList2 : List Recipe := [rdemo2]

/-- User 1's tag list with `assigned_only=1` in the demo store. -/
def c5demoList : List Attr := [tagVegetarian, tagVegan]

/-- A patch payload that tries to reassign the recipe to user 2. -/
def c2payload : RecipePayload :=
  { RecipePayload.empty with user := some 2, title := some "New title" }

/-- The create payload of the nested-tags test: two fresh tag names and one fresh
ingredient name. -/
def c4payload : RecipePayload :=
  { title := some "Thai Prawn Curry", time_minutes := some 30, price := some 250,
    description := none, link := none, user := none,
    tags := some ["Thai", "Dinner"], ingredients := some ["Salt"] }

/-- The user stored by `create_user` for email `Test2@Example.com`. -/
def c8user : User :=
  { id := 0, email := "Test2@example.com", password := "pw", name := "nm",
    is_staff := false, is_superuser := false }

/-! ## Theorems -/

/-! ### List helper lemmas -/

theorem takeWhile_middle {α : Type} (p : α → Bool) (xs ys : List α) (y : α)
    (hxs : ∀ x ∈ xs, p x = true) (hy : p y = false) :
    (xs ++ y :: ys).takeWhile p = xs := by
  induction xs with
  | nil => simp [List.takeWhile_cons, hy]
  | cons a as ih =>
    have ha := hxs a (by simp)
    simp only [List.cons_append, List.takeWhile_cons, ha, if_true]
    rw [ih (fun x hx => hxs x (by simp [hx]))]

theorem dropWhile_middle {α : Type} (p : α → Bool) (xs ys : List α) (y : α)
    (hxs : ∀ x ∈ xs, p x = true) (hy : p y = false) :
    (xs ++ y :: ys).dropWhile p = y :: ys := by
  induction xs with
  | nil => simp [List.dropWhile_cons, hy]
  | cons a as ih =>
    have ha := hxs a (by simp)
    simp only [List.cons_append, List.dropWhile_cons, ha, if_true]
    exact ih (fun x hx => hxs x (by simp [hx]))

theorem mem_insertSorted {α : Type} (le : α → α → Bool) (a x : α) (l : List α) :
    x ∈ insertSorted le a l ↔ x = a ∨ x ∈ l := by
  induction l with
  | nil => simp [insertSorted]
  | cons b bs ih =>
    by_cases h : le a b
    · simp [insertSorted, h]
    · simp [insertSorted, h, ih]
      tauto

theorem mem_sortBy {α : Type} (le : α → α → Bool) (x : α) (l : List α) :
    x ∈ sortBy le l ↔ x ∈ l := by
  induction l with
  | nil => simp [sortBy]
  | cons a as ih => simp [sortBy, mem_insertSorted, ih]

theorem pairwise_insertSorted {α : Type} (le : α → α → Bool)
    (trans : ∀ a b c, le a b = true → le b c = true → le a c = true)
    (total : ∀ a b, le a b || le b a) (a : α) (l : List α)
    (h : l.Pairwise (fun x y => le x y = true)) :
    (insertSorted le a l).Pairwise (fun x y => le x y = true) := by
  induction l with
  | nil => simp [insertSorted]
  | cons b bs ih =>
    rcases List.pairwise_cons.mp h with ⟨hb, hbs⟩
    by_cases hab : le a b
    · simp only [insertSorted, hab, if_true]
      refine List.pairwise_cons.mpr ⟨?_, h⟩
      intro y hy
      rcases List.mem_cons.mp hy with hyb | hybs
      · rw [hyb]; exact hab
      · exact trans a b y hab (hb y hybs)
    · simp only [insertSorted, hab, if_false]
      refine List.pairwise_cons.mpr ⟨?_, ih hbs⟩
      intro y hy
      rcases (mem_insertSorted le a y bs).mp hy with hya | hybs
      · rw [hya]
        have := total a b
        rcases Bool.or_eq_true_iff.mp this with h1 | h1
        · exact absurd h1 hab
        · exact h1
      · exact hb y hybs

theorem pairwise_sortBy {α : Type} (le : α → α → Bool)
    (trans : ∀ a b c, le a b = true → le b c = true → le a c = true)
    (total : ∀ a b, le a b || le b a) (l : List α) :
    (sortBy le l).Pairwise (fun x y => le x y = true) := by
  induction l with
  | nil => simp [sortBy]
  | cons a as ih => exact pairwise_insertSorted le trans total a (sortBy le as) ih

/-! ### Comparator facts -/

theorem descId_trans (a b c : Recipe) :
    descId a b = true → descId b c = true → descId a c = true := by
  simp [descId]; omega

theorem descId_total (a b : Recipe) : descId a b || descId b a := by
  simp [descId]; omega

theorem chListLe_trans : ∀ xs ys zs : List Char, chListLe xs ys = true →
    chListLe ys zs = true → chListLe xs zs = true
  | [], _, _ => fun _ _ => rfl
  | _ :: _, [], _ => fun h1 _ => by simp [chListLe] at h1
  | _ :: _, _ :: _, [] => fun _ h2 => by simp [chListLe] at h2
  | a :: as, b :: bs, c :: cs => fun h1 h2 => by
    simp only [chListLe] at h1 h2 ⊢
    by_cases hab : a.toNat < b.toNat
    · by_cases hbc : b.toNat < c.toNat
      · simp [show a.toNat < c.toNat by omega]
      · by_cases hcb : c.toNat < b.toNat
        · simp [hbc, hcb] at h2
        · simp [show a.toNat < c.toNat by omega]
    · by_cases hba : b.toNat < a.toNat
      · simp [hab, hba] at h1
      · by_cases hbc : b.toNat < c.toNat
        · simp [show a.toNat < c.toNat by omega]
        · by_cases hcb : c.toNat < b.toNat
          · simp [hbc, hcb] at h2
          · simp [hab, hba] at h1
            simp [hbc, hcb] at h2
            simp only [show ¬a.toNat < c.toNat by omega, show ¬c.toNat < a.toNat by omega,
              if_false]
            exact chListLe_trans as bs cs h1 h2

theorem chListLe_total : ∀ xs ys : List Char, (chListLe xs ys || chListLe ys xs) = true
  | [], _ => by simp [chListLe]
  | _ :: _, [] => by simp [chListLe]
  | a :: as, b :: bs => by
    simp only [chListLe]
    by_cases hab : a.toNat < b.toNat
    · simp [hab]
    · by_cases hba : b.toNat < a.toNat
      · simp [hab, hba]
      · simpa [hab, hba] using chListLe_total as bs

theorem descName_trans (a b c : Attr) :
    descName a b = true → descName b c = true → descName a c = true := by
  simp only [descName, strLe]
  intro h1 h2
  exact chListLe_trans _ _ _ h2 h1

theorem descName_total (a b : Attr) : descName a b || descName b a := by
  simp only [descName, strLe]
  rw [Bool.or_comm]
  exact chListLe_total _ _

/-- The recipe list pipeline tail (`order_by("-id").distinct()`) yields a list
sorted by descending id. -/
theorem recipe_order_sorted (qs : List Recipe) :
    ((sortBy descId qs).dedup).Pairwise (fun a b : Recipe => b.id ≤ a.id) := by
  have hp := pairwise_sortBy descId descId_trans descId_total qs
  have hp2 : (sortBy descId qs).Pairwise (fun a b : Recipe => b.id ≤ a.id) :=
    hp.imp (fun h => by simpa [descId] using h)
  exact List.Pairwise.sublist (List.dedup_sublist _) hp2

/-- The tag/ingredient list pipeline tail (`order_by("-name").distinct()`) yields a
list sorted by descending name. -/
theorem attr_order_sorted (qs : List Attr) :
    ((sortBy descName qs).dedup).Pairwise (fun a b : Attr => strLe b.name a.name = true) := by
  have hp := pairwise_sortBy descName descName_trans descName_total qs
  have hp2 : (sortBy descName qs).Pairwise (fun a b : Attr => strLe b.name a.name = true) :=
    hp.imp (fun h => by simpa [descName] using h)
  exact List.Pairwise.sublist (List.dedup_sublist _) hp2

/-! ### Ordering of the list endpoints (claim C6) -/

/-- C6: whatever the store, requester and (successfully parsed) filter parameters,
the recipe list comes out ordered by descending id and the tag/ingredient list by
descending name. -/
theorem c6_list_ordering (st : Store) (u : Nat) (tp ip ap : Option String)
    (rows : List Attr) (link : Recipe → List Nat) (lr : List Recipe) (la : List Attr)
    (hr : recipe_get_queryset st u tp ip = Except.ok lr)
    (ha : attr_get_queryset rows st link u ap = Except.ok la) :
    lr.Pairwise (fun a b : Recipe => b.id ≤ a.id) ∧
      la.Pairwise (fun a b : Attr => strLe b.name a.name = true) := by
  constructor
  · unfold recipe_get_queryset at hr
    split at hr
    · cases hr
    · split at hr
      · cases hr
      · cases hr
        exact recipe_order_sorted _
  · unfold attr_get_queryset at ha
    split at ha
    · cases ha
    · cases ha
      exact attr_order_sorted _

/-- Witness for C6: in the demo store, user 1's recipe list comes back as ids
3, 2, 1 and the tag list as Vegetarian, Vegan. -/
theorem c6_witness :
    ([rdemo3, rdemo2, rdemo1] : List Recipe).Pairwise (fun a b : Recipe => b.id ≤ a.id) ∧
      ([tagVegetarian, tagVegan] : List Attr).Pairwise (fun a b : Attr => strLe b.name a.name = true) :=
  c6_list_ordering demoStore 1 none none none demoStore.tags Recipe.tags
    [rdemo3, rdemo2, rdemo1] [tagVegetarian, tagVegan] (by decide) (by decide)

/-! ### Email normalisation (claim C8) -/

theorem normalize_email_split (l d : String) (hd : ∀ c ∈ d.data, c ≠ '@') :
    normalize_email (String.mk (l.data ++ '@' :: d.data)) =
      String.mk (l.data ++ '@' :: lowerChars d.data) := by
  have hrev : (l.data ++ '@' :: d.data).reverse = d.data.reverse ++ '@' :: l.data.reverse := by
    simp [List.reverse_append]
  have hdrev : ∀ c ∈ d.data.reverse, (c != '@') = true := by
    intro c hc
    exact bne_iff_ne.mpr (hd c (List.mem_reverse.mp hc))
  have hat : (('@' : Char) != '@') = false := by simp
  have hcontains : (l.data ++ '@' :: d.data).reverse.contains '@' = true := by
    rw [hrev]
    have hmem : '@' ∈ d.data.reverse ++ '@' :: l.data.reverse := by simp
    simp [List.contains, List.elem_eq_mem, hmem]
  unfold normalize_email
  simp only [hcontains, if_true, hrev]
  rw [takeWhile_middle _ _ _ _ hdrev hat, dropWhile_middle _ _ _ _ hdrev hat]
  simp

/-- C8: for every email accepted at user creation whose domain part (the portion
after the last `@`) contains no further `@`, the stored email keeps the local part
verbatim and lower-cases exactly the domain part. -/
theorem c8_stored_email_lowercases_domain_only (users : List User) (nid : Nat)
    (l d pw nm : String) (hd : ∀ c ∈ d.data, c ≠ '@') (res : List User × User)
    (h : create_user users nid (String.mk (l.data ++ '@' :: d.data)) pw nm = Except.ok res) :
    res.2.email = String.mk (l.data ++ '@' :: lowerChars d.data) := by
  have hne : (String.mk (l.data ++ '@' :: d.data) == "") = false := by
    rw [beq_eq_false_iff_ne]
    intro hcontra
    have : (l.data ++ '@' :: d.data) = "".data := by rw [← hcontra]
    simp at this
  unfold create_user at h
  rw [hne] at h
  simp only [Bool.false_eq_true, if_false] at h
  have := (Except.ok.injEq _ _).mp h
  rw [← this]
  exact normalize_email_split l d hd

/-- Witness for C8 at the spec's own example: `Test2@Example.com` is stored as
`Test2@example.com`. -/
theorem c8_witness :
    c8user.email = String.mk ("Test2".data ++ '@' :: lowerChars "Example.com".data) :=
  c8_stored_email_lowercases_domain_only [] 0 "Test2" "Example.com" "pw" "nm"
    (by decide) ([c8user], c8user) (by decide)

/-! ### Empty email at user creation (claim C9) -/

/-- C9 (amended): `create_user` with an empty (falsy) email always fails, raising
`ValueError` (not `ValidationError`), and no user is created. -/
theorem c9_create_user_empty_email_value_error (users : List User) (nid : Nat) (pw nm : String) :
    create_user users nid "" pw nm =
        Except.error (PyExc.valueError "User must have an email address") ∧
      succeeded (create_user users nid "" pw nm) = false := ⟨rfl, rfl⟩

/-- C9 counterexample to the claim as stated: at the concrete input of an empty
email, the exception raised is a `ValueError`, not the claimed `ValidationError`. -/
theorem c9_counterexample :
    raisesValidationError (create_user [] 0 "" "pw" "nm") = false ∧
      raisesValueError (create_user [] 0 "" "pw" "nm") = true := by decide

/-! ### Unhandled ValueError on malformed query parameters (claim C10) -/

/-- C10: query-parameter parsing in the list views is partial: a non-integer
`tags` value such as `abc` makes `_params_to_ints`' `int()` raise `ValueError`,
and a non-integer `assigned_only` value likewise; the exception propagates out of
the list views (an `Except.error`, never a 400 response value). -/
theorem c10_query_param_parsing_partial :
    params_to_ints "abc" =
        Except.error (PyExc.valueError "invalid literal for int with base 10") ∧
      recipe_list_view emptyStore 1 (some "abc") none =
        Except.error (PyExc.valueError "invalid literal for int with base 10") ∧
      attr_list_view [] emptyStore Recipe.tags 1 (some "abc") =
        Except.error (PyExc.valueError "invalid literal for int with base 10") ∧
      succeeded (recipe_list_view emptyStore 1 (some "abc") none) = false ∧
      succeeded (attr_list_view [] emptyStore Recipe.tags 1 (some "abc")) = false :=
  ⟨by decide, by decide, by decide, by decide, by decide⟩

/-! ### Membership characterisations of the list pipelines -/

theorem mem_orderDedup {α : Type} [DecidableEq α] (le : α → α → Bool) (l : List α) (x : α) :
    x ∈ (sortBy le l).dedup ↔ x ∈ l := by
  rw [List.mem_dedup, mem_sortBy]

theorem mem_joinFilter {link : Recipe → List Nat} {ids : List Int} {qs : List Recipe}
    {r : Recipe} :
    r ∈ joinFilter link ids qs ↔ r ∈ qs ∧ ∃ t ∈ link r, Int.ofNat t ∈ ids := by
  simp only [joinFilter, List.mem_flatMap, List.mem_map, List.mem_filter]
  constructor
  · rintro ⟨a, ha, x, ⟨hx1, hx2⟩, hxr⟩
    subst hxr
    refine ⟨ha, x, hx1, ?_⟩
    simpa [List.contains, List.elem_eq_mem] using hx2
  · rintro ⟨hq, t, ht, hid⟩
    refine ⟨r, hq, t, ⟨ht, ?_⟩, rfl⟩
    simpa [List.contains, List.elem_eq_mem] using hid

theorem mem_joinAssigned {st : Store} {link : Recipe → List Nat} {qs : List Attr} {a : Attr} :
    a ∈ joinAssigned st link qs ↔ a ∈ qs ∧ ∃ r ∈ st.recipes, a.id ∈ link r := by
  simp only [joinAssigned, List.mem_flatMap, List.mem_map, List.mem_filter]
  constructor
  · rintro ⟨x, hx, r, ⟨hr1, hr2⟩, hxa⟩
    subst hxa
    refine ⟨hx, r, hr1, ?_⟩
    simpa [List.contains, List.elem_eq_mem] using hr2
  · rintro ⟨hq, r, hr, hid⟩
    refine ⟨a, hq, r, ⟨hr, ?_⟩, rfl⟩
    simpa [List.contains, List.elem_eq_mem] using hid

theorem applyIdFilter_some {link : Recipe → List Nat} {s : String} {qs : List Recipe}
    {ids : List Int} (hne : (s == "") = false) (hids : params_to_ints s = Except.ok ids) :
    applyIdFilter link (some s) qs = Except.ok (joinFilter link ids qs) := by
  simp [applyIdFilter, hne, hids]

/-! ### Recipe list filtering by tag/ingredient ids (claim C3) -/

/-- C3: with a parsed non-empty `tags` (resp. `ingredients`) parameter, the recipe
list contains exactly the requester's recipes linked to at least one of the given
ids (union across the ids), and each such recipe appears exactly once. -/
theorem c3_recipe_filter_union (st : Store) (u : Nat) (s : String) (ids : List Int)
    (l l2 : List Recipe) (hne : s ≠ "") (hids : params_to_ints s = Except.ok ids)
    (h : recipe_get_queryset st u (some s) none = Except.ok l)
    (h2 : recipe_get_queryset st u none (some s) = Except.ok l2) :
    ((∀ r : Recipe, r ∈ l ↔
        (r ∈ st.recipes ∧ r.user = u ∧ ∃ t ∈ r.tags, Int.ofNat t ∈ ids)) ∧ l.Nodup) ∧
      ((∀ r : Recipe, r ∈ l2 ↔
        (r ∈ st.recipes ∧ r.user = u ∧ ∃ t ∈ r.ingredients, Int.ofNat t ∈ ids)) ∧ l2.Nodup) := by
  have hsne : (s == "") = false := beq_eq_false_iff_ne.mpr hne
  unfold recipe_get_queryset at h h2
  simp only [applyIdFilter, hsne, Bool.false_eq_true, if_false, hids, Except.ok.injEq] at h h2
  subst h
  subst h2
  refine ⟨⟨?_, List.nodup_dedup _⟩, ⟨?_, List.nodup_dedup _⟩⟩
  · intro r
    rw [mem_orderDedup, mem_joinFilter, List.mem_filter]
    simp [and_assoc]
  · intro r
    rw [mem_orderDedup, mem_joinFilter, List.mem_filter]
    simp [and_assoc]

/-- Witness for C3: filtering user 1's recipes by `tags=1,2` in the demo store
returns recipe 1 (tag 1) but not the untagged recipe 3, without duplicates, and
filtering by `ingredients=1,2` returns recipe 2. -/
theorem c3_witness :
    rdemo1 ∈ c3demoList ∧ rdemo3 ∉ c3demoList ∧ c3demoList.Nodup ∧ rdemo2 ∈ c3demoList2 := by
  have h := c3_recipe_filter_union demoStore 1 "1,2" [1, 2] c3demoList c3demoList2
    (by decide) (by decide) (by decide) (by decide)
  refine ⟨(h.1.1 rdemo1).mpr (by decide), ?_, h.1.2, (h.2.1 rdemo2).mpr (by decide)⟩
  intro hmem
  exact absurd ((h.1.1 rdemo3).mp hmem) (by decide)

/-! ### Tag/ingredient list with assigned_only=1 (claim C5) -/

/-- C5: with `assigned_only=1`, the tag (resp. ingredient) list contains exactly the
requester's own rows that are linked to at least one recipe — a recipe of any
owner — and each such row appears exactly once. -/
theorem c5_assigned_only_filter (rows : List Attr) (st : Store) (link : Recipe → List Nat)
    (u : Nat) (l : List Attr)
    (h : attr_get_queryset rows st link u (some "1") = Except.ok l) :
    (∀ a : Attr, a ∈ l ↔ (a ∈ rows ∧ a.user = u ∧ ∃ r ∈ st.recipes, a.id ∈ link r)) ∧
      l.Nodup := by
  simp only [attr_get_queryset] at h
  rw [show pyInt "1" = Except.ok 1 from by decide] at h
  simp only [show ((1 : Int) == 0) = false from by decide, Bool.false_eq_true, if_false,
    Except.ok.injEq] at h
  subst h
  refine ⟨?_, List.nodup_dedup _⟩
  intro a
  rw [mem_orderDedup, mem_joinAssigned, List.mem_filter]
  simp [and_assoc]

/-- Witness for C5: in the demo store with `assigned_only=1`, user 1's tag list
keeps Vegan (linked from recipes of users 1 and 2) exactly once and excludes user
2's tag Fruity. -/
theorem c5_witness :
    tagVegan ∈ c5demoList ∧ tagFruity ∉ c5demoList ∧ c5demoList.Nodup := by
  have h := c5_assigned_only_filter demoStore.tags demoStore Recipe.tags 1 c5demoList
    (by decide)
  refine ⟨(h.1 tagVegan).mpr (by decide), ?_, h.2⟩
  intro hmem
  exact absurd ((h.1 tagFruity).mp hmem) (by decide)

/-! ### Token endpoint contract (claim C7) -/

/-- C7: posting credentials matching an existing user answers 200 with a `token`
key; any credentials the user store rejects answer 400 with no `token` key; and an
empty password is always rejected with 400, never treated as skipping the password
check. -/
theorem c7_token_endpoint_contract (users : List User) (email pw : String) (u : User)
    (hauth : authenticate users email pw = some u) (hemail : email ≠ "") (hpw : pw ≠ "") :
    ((token_endpoint users email pw).status = 200 ∧
      (token_endpoint users email pw).token.isSome = true) ∧
    (∀ pw2 : String, authenticate users email pw2 = none →
      token_endpoint users email pw2 = { status := 400, token := none }) ∧
    token_endpoint users email "" = { status := 400, token := none } := by
  have he : (email == "") = false := beq_eq_false_iff_ne.mpr hemail
  have hp : (pw == "") = false := beq_eq_false_iff_ne.mpr hpw
  refine ⟨?_, ?_, ?_⟩
  · simp [token_endpoint, he, hp, hauth]
  · intro pw2 hnone
    by_cases h2 : pw2 = ""
    · subst h2
      simp [token_endpoint]
    · have hp2 : (pw2 == "") = false := beq_eq_false_iff_ne.mpr h2
      simp [token_endpoint, he, hp2, hnone]
  · simp [token_endpoint]

/-- Witness for C7 with a concrete one-user store: the stored credentials get a
200 with a token; a wrong and an empty password each get `{400, no token}`. -/
theorem c7_witness :
    ((token_endpoint [demoUser] "test@example.com" "test123").status = 200 ∧
      (token_endpoint [demoUser] "test@example.com" "test123").token.isSome = true) ∧
    token_endpoint [demoUser] "test@example.com" "badpass" = { status := 400, token := none } ∧
    token_endpoint [demoUser] "test@example.com" "" = { status := 400, token := none } := by
  have h := c7_token_endpoint_contract [demoUser] "test@example.com" "test123" demoUser
    (by decide) (by decide) (by decide)
  exact ⟨h.1, h.2.1 "badpass" (by decide), h.2.2⟩

/-! ### Facts about get_object -/

theorem id_injective_of_nodup {l : List Recipe} (h : (l.map Recipe.id).Nodup)
    {x y : Recipe} (hx : x ∈ l) (hy : y ∈ l) (hxy : x.id = y.id) : x = y :=
  List.inj_on_of_nodup_map h hx hy hxy

theorem attr_id_injective_of_nodup {l : List Attr} (h : (l.map Attr.id).Nodup)
    {x y : Attr} (hx : x ∈ l) (hy : y ∈ l) (hxy : x.id = y.id) : x = y :=
  List.inj_on_of_nodup_map h hx hy hxy

theorem recipe_get_object_spec {st : Store} {u pk : Nat} {r : Recipe}
    (h : recipe_get_object st u pk = some r) :
    r ∈ st.recipes ∧ r.user = u ∧ r.id = pk := by
  unfold recipe_get_object recipe_get_queryset at h
  simp only [applyIdFilter] at h
  have hp := List.find?_some h
  have hm := List.mem_of_find?_eq_some h
  rw [mem_orderDedup, List.mem_filter] at hm
  exact ⟨hm.1, beq_iff_eq.mp hm.2, beq_iff_eq.mp hp⟩

theorem recipe_get_object_none {st : Store} {u pk : Nat}
    (hnone : ∀ x ∈ st.recipes, x.user = u → x.id ≠ pk) :
    recipe_get_object st u pk = none := by
  unfold recipe_get_object recipe_get_queryset
  simp only [applyIdFilter]
  rw [List.find?_eq_none]
  intro x hx
  rw [mem_orderDedup, List.mem_filter] at hx
  simp only [beq_iff_eq]
  exact hnone x hx.1 (beq_iff_eq.mp hx.2)

theorem attr_get_object_none {rows : List Attr} {st : Store} {link : Recipe → List Nat}
    {u pk : Nat} (hnone : ∀ x ∈ rows, x.user = u → x.id ≠ pk) :
    attr_get_object rows st link u pk = none := by
  unfold attr_get_object attr_get_queryset
  simp only [beq_self_eq_true, if_true]
  rw [List.find?_eq_none]
  intro x hx
  rw [mem_orderDedup, List.mem_filter] at hx
  simp only [beq_iff_eq]
  exact hnone x hx.1 (beq_iff_eq.mp hx.2)

/-! ### Cross-user access (claim C1) -/

/-- C1 (amended): for a requester `b` distinct from the owner `a`, recipe
retrieve/update/delete by id answer 404 and leave the store untouched, and
tag/ingredient update/delete by id answer 404 and leave the table untouched;
tag/ingredient detail GET is not routed at all (no RetrieveModelMixin) and answers
405 for any requester. -/
theorem c1_cross_user_hidden (st : Store) (a b : Nat) (hab : b ≠ a)
    (r : Recipe) (hr : r ∈ st.recipes) (hru : r.user = a)
    (hnr : (st.recipes.map Recipe.id).Nodup)
    (rows : List Attr) (link : Recipe → List Nat)
    (t : Attr) (ht : t ∈ rows) (htu : t.user = a)
    (hnt : (rows.map Attr.id).Nodup)
    (tid iid : Nat) (p : RecipePayload) (nm : Option String) :
    recipe_retrieve st b r.id = 404 ∧
    recipe_partial_update st b r.id tid iid p = (st, 404) ∧
    recipe_destroy st b r.id = (st, 404) ∧
    attr_update rows st link b t.id nm = (rows, 404) ∧
    attr_destroy rows st link b t.id = (rows, 404) ∧
    attr_retrieve rows st b t.id = 405 := by
  have hrnone : recipe_get_object st b r.id = none := by
    apply recipe_get_object_none
    intro x hx hxu hxid
    have hxr : x = r := id_injective_of_nodup hnr hx hr hxid
    rw [hxr, hru] at hxu
    exact hab hxu.symm
  have htnone : attr_get_object rows st link b t.id = none := by
    apply attr_get_object_none
    intro x hx hxu hxid
    have hxt : x = t := attr_id_injective_of_nodup hnt hx ht hxid
    rw [hxt, htu] at hxu
    exact hab hxu.symm
  refine ⟨?_, ?_, ?_, ?_, ?_, rfl⟩
  · simp [recipe_retrieve, hrnone]
  · unfold recipe_partial_update
    rw [hrnone]
  · unfold recipe_destroy
    rw [hrnone]
  · unfold attr_update
    rw [htnone]
  · unfold attr_destroy
    rw [htnone]

/-- Witness for the amended C1: in the demo store, user 1 addressing user 2's
recipe 4 and tag Fruity gets 404 everywhere and nothing changes. -/
theorem c1_witness :
    recipe_retrieve demoStore 1 rdemo4.id = 404 ∧
    recipe_partial_update demoStore 1 rdemo4.id 0 0 RecipePayload.empty = (demoStore, 404) ∧
    recipe_destroy demoStore 1 rdemo4.id = (demoStore, 404) ∧
    attr_update demoStore.tags demoStore Recipe.tags 1 tagFruity.id none
        = (demoStore.tags, 404) ∧
    attr_destroy demoStore.tags demoStore Recipe.tags 1 tagFruity.id
        = (demoStore.tags, 404) := by
  have h := c1_cross_user_hidden demoStore 2 1 (by decide) rdemo4 (by decide) (by decide)
    (by decide) demoStore.tags Recipe.tags tagFruity (by decide) (by decide) (by decide)
    0 0 RecipePayload.empty none
  exact ⟨h.1, h.2.1, h.2.2.1, h.2.2.2.1, h.2.2.2.2.1⟩

/-- C1 counterexample to the claim as stated: a retrieve (detail GET) of user 2's
tag Fruity by the distinct authenticated user 1 answers 405 (method not allowed,
the route has no retrieve handler), not the claimed 404. -/
theorem c1_counterexample :
    tagFruity ∈ demoStore.tags ∧ tagFruity.user = 2 ∧ (1 : Nat) ≠ 2 ∧
      attr_retrieve demoStore.tags demoStore 1 tagFruity.id = 405 ∧
      attr_retrieve demoStore.tags demoStore 1 tagFruity.id ≠ 404 := by decide

/-! ### Recipe owner forced to the requester (claim C2) -/

/-- C2: a created recipe's stored owner is the authenticated requester whatever the
payload (in particular whatever its `user` value), and a partial update — again
whatever the payload — never changes any stored recipe's (id, owner) pairs. -/
theorem c2_owner_immutable (st : Store) (u rid tid iid pk : Nat) (p : RecipePayload)
    (hnodup : (st.recipes.map Recipe.id).Nodup) :
    (recipe_create st u rid tid iid p).2.user = u ∧
    (recipe_create st u rid tid iid p).1.recipes
        = st.recipes ++ [(recipe_create st u rid tid iid p).2] ∧
    (recipe_partial_update st u pk tid iid p).1.recipes.map (fun r => (r.id, r.user))
        = st.recipes.map (fun r => (r.id, r.user)) := by
  refine ⟨rfl, rfl, ?_⟩
  unfold recipe_partial_update
  cases hobj : recipe_get_object st u pk with
  | none => rfl
  | some r =>
    rcases recipe_get_object_spec hobj with ⟨hrmem, _, hrid⟩
    dsimp only
    rw [List.map_map]
    apply List.map_congr_left
    intro x hx
    by_cases hid : (x.id == pk) = true
    · have hxid : x.id = pk := beq_iff_eq.mp hid
      have hxr : x = r := id_injective_of_nodup hnodup hx hrmem (by rw [hxid, hrid])
      simp only [Function.comp, hid, if_true, hxr]
      split <;> rfl
    · simp [Function.comp, hid]

/-- Witness for C2: creating with a payload carrying `user := 2` still stores owner
1, and patching recipe 1 with that payload leaves every (id, owner) pair of the
demo store unchanged. -/
theorem c2_witness :
    (recipe_create demoStore 1 10 20 30 c2payload).2.user = 1 ∧
    (recipe_partial_update demoStore 1 1 20 30 c2payload).1.recipes.map
        (fun r => (r.id, r.user))
      = demoStore.recipes.map (fun r => (r.id, r.user)) := by
  have h := c2_owner_immutable demoStore 1 10 20 30 1 c2payload (by decide)
  exact ⟨h.1, h.2.2⟩

/-! ### Nested tag/ingredient get-or-create (claim C4) -/

theorem get_or_create_spec (u : Nat) : ∀ (names : List String) (rows : List Attr) (nid : Nat),
    names.Nodup →
    ((get_or_create u rows nid names).1.map Attr.name = names ∧
      ∀ a ∈ (get_or_create u rows nid names).1, a.user = u) ∧
    ∃ created : List Attr,
      (get_or_create u rows nid names).2.1 = rows ++ created ∧
      created.map Attr.name = names.filter (fun n => !(hasMatch u rows n)) ∧
      ∀ c ∈ created, c.user = u
  | [], rows, nid, _ => by
    refine ⟨⟨rfl, by simp [get_or_create]⟩, [], by simp [get_or_create], rfl, by simp⟩
  | n :: ns, rows, nid, hnd => by
    rcases List.nodup_cons.mp hnd with ⟨hn, hns⟩
    cases hfind : rows.find? (matchesAttr u n) with
    | some a =>
      have hma := List.find?_some hfind
      rw [matchesAttr] at hma
      rcases Bool.and_eq_true_iff.mp hma with ⟨hau, han⟩
      have hau2 : a.user = u := beq_iff_eq.mp hau
      have han2 : a.name = n := beq_iff_eq.mp han
      rcases get_or_create_spec u ns rows nid hns with ⟨⟨ih1, ih2⟩, created, ihc1, ihc2, ihc3⟩
      have hmatch : hasMatch u rows n = true := by
        rw [hasMatch, hfind]
        rfl
      refine ⟨⟨?_, ?_⟩, created, ?_, ?_, ihc3⟩
      · simp only [get_or_create, hfind, List.map_cons, ih1, han2]
      · simp only [get_or_create, hfind]
        intro x hx
        rcases List.mem_cons.mp hx with hxa | hxr
        · rw [hxa]
          exact hau2
        · exact ih2 x hxr
      · simp only [get_or_create, hfind]
        exact ihc1
      · rw [List.filter_cons]
        simp only [hmatch, Bool.not_true, Bool.false_eq_true, if_false]
        exact ihc2
    | none =>
      rcases get_or_create_spec u ns (rows ++ [{ id := nid, name := n, user := u }])
          (nid + 1) hns with ⟨⟨ih1, ih2⟩, created, ihc1, ihc2, ihc3⟩
      have hmatch : hasMatch u rows n = false := by
        rw [hasMatch, hfind]
        rfl
      have hfiltereq :
          ns.filter (fun m => !(hasMatch u (rows ++ [{ id := nid, name := n, user := u }]) m))
            = ns.filter (fun m => !(hasMatch u rows m)) := by
        apply List.filter_congr
        intro m hm
        have hmn : m ≠ n := fun hmn => hn (hmn ▸ hm)
        have hone : [({ id := nid, name := n, user := u } : Attr)].find? (matchesAttr u m)
            = none := by
          rw [List.find?_eq_none]
          intro x hx
          rw [List.mem_singleton] at hx
          subst hx
          simp only [matchesAttr, beq_self_eq_true, Bool.true_and]
          intro hcontra
          exact hmn (beq_iff_eq.mp hcontra).symm
        rw [hasMatch, hasMatch, List.find?_append, hone, Option.or_none]
      refine ⟨⟨?_, ?_⟩, { id := nid, name := n, user := u } :: created, ?_, ?_, ?_⟩
      · simp only [get_or_create, hfind, List.map_cons, ih1]
      · simp only [get_or_create, hfind]
        intro x hx
        rcases List.mem_cons.mp hx with hxa | hxr
        · rw [hxa]
        · exact ih2 x hxr
      · simp only [get_or_create, hfind]
        rw [ihc1, List.append_assoc]
        rfl
      · rw [List.filter_cons]
        simp only [hmatch, Bool.not_false, if_true, List.map_cons]
        rw [ihc2, hfiltereq]
      · intro c hc
        rcases List.mem_cons.mp hc with hca | hcr
        · rw [hca]
        · exact ihc3 c hcr

/-- C4: for a recipe create whose payload carries nested tag names `tnames` and
ingredient names `inames` (lists of distinct names): the resolved rows follow the
payload order and all belong to the requester; the tag/ingredient tables only grow
at the end, by exactly one new requester-owned row per name that had no owner-and-
name match (matching names are reused, creating nothing); and the created recipe
links exactly the resolved rows, in payload order. -/
theorem c4_nested_get_or_create (st : Store) (u rid tid iid : Nat)
    (tnames inames : List String) (hndt : tnames.Nodup) (hndi : inames.Nodup)
    (p : RecipePayload) (hpt : p.tags = some tnames) (hpi : p.ingredients = some inames) :
    ((get_or_create u st.tags tid tnames).1.map Attr.name = tnames) ∧
    (∀ a ∈ (get_or_create u st.tags tid tnames).1, a.user = u) ∧
    ((get_or_create u st.tags tid tnames).2.1.take st.tags.length = st.tags) ∧
    (((get_or_create u st.tags tid tnames).2.1.drop st.tags.length).map Attr.name
        = tnames.filter (fun n => !(hasMatch u st.tags n))) ∧
    (∀ c ∈ (get_or_create u st.tags tid tnames).2.1.drop st.tags.length, c.user = u) ∧
    ((get_or_create u st.ingredients iid inames).1.map Attr.name = inames) ∧
    (((get_or_create u st.ingredients iid inames).2.1.drop st.ingredients.length).map Attr.name
        = inames.filter (fun n => !(hasMatch u st.ingredients n))) ∧
    ((recipe_create st u rid tid iid p).2.tags
        = (get_or_create u st.tags tid tnames).1.map Attr.id) ∧
    ((recipe_create st u rid tid iid p).2.ingredients
        = (get_or_create u st.ingredients iid inames).1.map Attr.id) ∧
    ((recipe_create st u rid tid iid p).1.tags = (get_or_create u st.tags tid tnames).2.1) ∧
    ((recipe_create st u rid tid iid p).1.ingredients
        = (get_or_create u st.ingredients iid inames).2.1) := by
  rcases get_or_create_spec u tnames st.tags tid hndt with
    ⟨⟨ht1, ht2⟩, tcreated, htc1, htc2, htc3⟩
  rcases get_or_create_spec u inames st.ingredients iid hndi with
    ⟨⟨hi1, _⟩, icreated, hic1, hic2, _⟩
  have htake : (get_or_create u st.tags tid tnames).2.1.take st.tags.length = st.tags := by
    rw [htc1]
    exact List.take_left _ _
  have hdropt : (get_or_create u st.tags tid tnames).2.1.drop st.tags.length = tcreated := by
    rw [htc1]
    exact List.drop_left _ _
  have hdropi : (get_or_create u st.ingredients iid inames).2.1.drop st.ingredients.length
      = icreated := by
    rw [hic1]
    exact List.drop_left _ _
  refine ⟨ht1, ht2, htake, ?_, ?_, hi1, ?_, ?_, ?_, ?_, ?_⟩
  · rw [hdropt]
    exact htc2
  · rw [hdropt]
    exact htc3
  · rw [hdropi]
    exact hic2
  · simp [recipe_create, hpt]
  · simp [recipe_create, hpi]
  · simp [recipe_create, hpt]
  · simp [recipe_create, hpi]

/-- Witness for C4 at the nested-tags test scenario: creating in an empty store
with fresh tag names Thai and Dinner resolves both in payload order, creates
exactly two requester-owned tag rows, and the created recipe links both. -/
theorem c4_witness :
    ((get_or_create 1 emptyStore.tags 10 ["Thai", "Dinner"]).1.map Attr.name
        = ["Thai", "Dinner"]) ∧
    (((get_or_create 1 emptyStore.tags 10 ["Thai", "Dinner"]).2.1.drop
          emptyStore.tags.length).map Attr.name
        = (["Thai", "Dinner"].filter (fun n => !(hasMatch 1 emptyStore.tags n)))) ∧
    ((recipe_create emptyStore 1 5 10 20 c4payload).2.tags
        = (get_or_create 1 emptyStore.tags 10 ["Thai", "Dinner"]).1.map Attr.id) ∧
    (recipe_create emptyStore 1 5 10 20 c4payload).1.tags.length = 2 := by
  have h := c4_nested_get_or_create emptyStore 1 5 10 20 ["Thai", "Dinner"] ["Salt"]
    (by decide) (by decide) c4payload (by decide) (by decide)
  exact ⟨h.1, h.2.2.2.1, h.2.2.2.2.2.2.2.1, by decide⟩

end RecipeApp
